import Mathlib

/-!
Verification of the template-instance migration logic of
`openshift_adm_migrate_template_instances.py` (class
`OpenShiftMigrateTemplateInstances`).

The Python code works on nested dictionaries.  We embed the relevant
shapes as structures whose fields are `Option`-valued: `some v` models a
present key, `none` a key that is absent (or `None`).  Python's
`d["k"]` on a missing key raises `KeyError`; we model a computation that
can raise as `Except Unit`.  Python's `d.get("k")` returns the `Option`
directly.
-/

namespace MigrateTI

/-- An entry of a TemplateInstance object reference (the value of the
nested key `obj["ref"]` in the source): a dictionary with keys `kind`,
`apiVersion`, `name`, `namespace`, `uid`, each possibly absent. -/
structure ObjRef where
  kind : Option String
  apiVersion : Option String
  name : Option String
  ns : Option String
  uid : Option String
deriving DecidableEq

/-- An element of the `status.objects` list: a dictionary expected to
hold a `ref` key (absent `ref` models a malformed entry). -/
structure StatusObject where
  ref : Option ObjRef
deriving DecidableEq

/-- The `status` sub-dictionary of a TemplateInstance: its `objects`
key may be absent (`none`); `some []` models a present but empty list. -/
structure TIStatus where
  objects : Option (List StatusObject)
deriving DecidableEq

/-- A TemplateInstance record as a dictionary: `kind`, an identifying
`name`, and the `status` sub-dictionary, each possibly absent. -/
structure Record where
  kind : Option String
  name : Option String
  status : Option TIStatus
deriving DecidableEq

/-- The dictionary passed to `perform_migrations`: either a single
TemplateInstance or a TemplateInstanceList.  `asRecord` is the
record-view of the same dictionary (its `kind` and `status` keys);
`items` is the `items` key (absent and `None` both map to `none`, since
the source reads it with `.get`). -/
structure TIInput where
  asRecord : Record
  items : Option (List Record)
deriving DecidableEq

/-- The module-level `transforms` dictionary of the source: the fixed
map from reference kind to canonical apiVersion. -/
def transforms (kind : String) : Option String :=
  if kind = "Build" then some "build.openshift.io/v1"
  else if kind = "BuildConfig" then some "build.openshift.io/v1"
  else if kind = "DeploymentConfig" then some "apps.openshift.io/v1"
  else if kind = "Route" then some "route.openshift.io/v1"
  else none

/-- One iteration of the inner loop of `perform_migrations` acting on
the `ref` dictionary: `object_type = obj["ref"]["kind"]` (raises when
`kind` is absent); if the kind is in `transforms` and
`obj["ref"].get("apiVersion")` differs from the canonical value
(including an absent apiVersion) the apiVersion is rewritten and the
dirty flag is returned `true`. -/
def migrateRef (r : ObjRef) : Except Unit (ObjRef × Bool) :=
  match r.kind with
  | none => Except.error ()
  | some k =>
    match transforms k with
    | some canon =>
      if r.apiVersion ≠ some canon then
        Except.ok ({ r with apiVersion := some canon }, true)
      else
        Except.ok (r, false)
    | none => Except.ok (r, false)

/-- One iteration of the inner loop at the `obj` level: `obj["ref"]`
raises when the `ref` key is absent. -/
def migrateObj (o : StatusObject) : Except Unit (StatusObject × Bool) :=
  match o.ref with
  | none => Except.error ()
  | some r =>
    match migrateRef r with
    | Except.error e => Except.error e
    | Except.ok (r2, d) => Except.ok (⟨some r2⟩, d)

/-- The inner `for i, obj in enumerate(objects)` loop: rewrites each
entry in order and counts how many entries were rewritten (each rewrite
appends the enclosing record once in the source). -/
def migrateObjs : List StatusObject → Except Unit (List StatusObject × Nat)
  | [] => Except.ok ([], 0)
  | o :: rest =>
    match migrateObj o with
    | Except.error e => Except.error e
    | Except.ok (o2, d) =>
      match migrateObjs rest with
      | Except.error e => Except.error e
      | Except.ok (rest2, n) => Except.ok (o2 :: rest2, (if d then 1 else 0) + n)

/-- Processing of one `ti_elem`: `ti_elem["status"]` raises when the
`status` key is absent; `objects = ti_elem["status"].get("objects")`
then `if objects:` skips the inner loop when `objects` is absent or an
empty list (both are falsy in Python).  Returns the record after the
in-place rewrites together with the number of rewrites performed. -/
def migrateRecord (t : Record) : Except Unit (Record × Nat) :=
  match t.status with
  | none => Except.error ()
  | some st =>
    match st.objects with
    | none => Except.ok (t, 0)
    | some objs =>
      if objs = [] then Except.ok (t, 0)
      else
        match migrateObjs objs with
        | Except.error e => Except.error e
        | Except.ok (objs2, n) =>
          Except.ok ({ t with status := some { objects := some objs2 } }, n)

/-- The outer `for ti_elem in ti_list` loop of `perform_migrations`.
In the source `ti_to_be_migrated.append(ti_elem)` runs once per
rewritten reference, and every appended element aliases the same
mutated dictionary, so a record with `n` rewritten references
contributes `n` copies of its final (fully rewritten) state. -/
def migrateList : List Record → Except Unit (List Record)
  | [] => Except.ok []
  | t :: rest =>
    match migrateRecord t with
    | Except.error e => Except.error e
    | Except.ok (t2, n) =>
      match migrateList rest with
      | Except.error e => Except.error e
      | Except.ok out => Except.ok (List.replicate n t2 ++ out)

/-- Record-by-record results of the outer loop, used to state how the
output of `migrateList` is assembled. -/
def migrateRecords : List Record → Except Unit (List (Record × Nat))
  | [] => Except.ok []
  | t :: rest =>
    match migrateRecord t with
    | Except.error e => Except.error e
    | Except.ok p =>
      match migrateRecords rest with
      | Except.error e => Except.error e
      | Except.ok ps => Except.ok (p :: ps)

/-- The `ti_list` selection of `perform_migrations`:
`templateinstances.get("kind") == "TemplateInstanceList" and
templateinstances.get("items") or [templateinstances]`.  Python
truthiness makes an absent, `None` or empty `items` fall through to
`[templateinstances]`, wrapping the whole dictionary as a single
record. -/
def selectTiList (t : TIInput) : List Record :=
  if t.asRecord.kind = some "TemplateInstanceList" then
    match t.items with
    | some l => if l = [] then [t.asRecord] else l
    | none => [t.asRecord]
  else [t.asRecord]

/-- The static method `perform_migrations` of the source. -/
def perform_migrations (t : TIInput) : Except Unit (List Record) :=
  migrateList (selectTiList t)

/-- Whether an object reference satisfies the rewrite condition of the
source: its kind is present, mapped by `transforms`, and its stored
apiVersion differs from the canonical value. -/
def refNeedsRewrite (r : ObjRef) : Bool :=
  match r.kind with
  | none => false
  | some k =>
    match transforms k with
    | some canon => decide (r.apiVersion ≠ some canon)
    | none => false

/-- Whether a `status.objects` entry carries a reference satisfying
the rewrite condition. -/
def objNeedsRewrite (o : StatusObject) : Bool :=
  match o.ref with
  | none => false
  | some r => refNeedsRewrite r

/-- Whether a record holds at least one reference satisfying the
rewrite condition. -/
def recordHasStaleRef (t : Record) : Bool :=
  match t.status with
  | none => false
  | some st =>
    match st.objects with
    | none => false
    | some objs => objs.any objNeedsRewrite

/-- Observable outcome of `execute_module`: the `changed` flag and
`result` list passed to `exit_json`, the records sent to the client for
patching (the network mutations), and which fetch was issued
(`some ns` for the per-namespace get, `none` for the all-namespaces
get). -/
structure ExecResult where
  changed : Bool
  result : List Record
  patched : List Record
  fetchedNamespace : Option String
deriving DecidableEq

/-- The `execute_module` method.  `fetchAll` and `fetchNs` abstract the
client `resource.get()` calls (a fetch failure aborts via `fail_json`
and is out of scope), `patchFn` abstracts `patch_template_instance`
(whose own failure likewise aborts via `fail_json`).  When a namespace
is given the method only fetches and falls through to
`exit_json(changed=False, result=[])`; otherwise it runs
`perform_migrations` on the all-namespaces listing and, when the
migrated set is non-empty, either exits in check mode with the set
itself or patches each element in order. -/
def execute_module (ns : Option String) (checkMode : Bool)
    (fetchAll : TIInput) (fetchNs : String → TIInput)
    (patchFn : Record → Record) : Except Unit ExecResult :=
  match ns with
  | some n =>
    let _ := fetchNs n
    Except.ok ⟨false, [], [], some n⟩
  | none =>
    match perform_migrations fetchAll with
    | Except.error e => Except.error e
    | Except.ok tis =>
      if tis = [] then Except.ok ⟨false, [], [], none⟩
      else if checkMode then Except.ok ⟨true, tis, [], none⟩
      else Except.ok ⟨true, tis.map patchFn, tis, none⟩

/-! Concrete fixtures used to evaluate the definitions on closed inputs. -/

/-- A Route reference on the stale combined group/version/kind string
that the migration is meant to fix. -/
def routeRefStale : ObjRef :=
  ⟨some "Route", some "route.openshift.io/v1.Route", some "route", some "test", none⟩

/-- A second stale Route reference (absent apiVersion). -/
def routeRefStale2 : ObjRef :=
  ⟨some "Route", none, some "route2", some "test", none⟩

/-- The first Route reference after rewriting. -/
def routeRefFixed : ObjRef :=
  ⟨some "Route", some "route.openshift.io/v1", some "route", some "test", none⟩

/-- The second Route reference after rewriting. -/
def routeRefFixed2 : ObjRef :=
  ⟨some "Route", some "route.openshift.io/v1", some "route2", some "test", none⟩

/-- A reference whose kind has no canonical mapping. -/
def secretRef : ObjRef := ⟨some "Secret", some "v1", some "s", none, none⟩

/-- A record holding two stale Route references. -/
def twoStaleRecord : Record :=
  ⟨some "TemplateInstance", some "ti", some ⟨some [⟨some routeRefStale⟩, ⟨some routeRefStale2⟩]⟩⟩

/-- The two-stale-references record after both rewrites. -/
def twoStaleMigrated : Record :=
  ⟨some "TemplateInstance", some "ti", some ⟨some [⟨some routeRefFixed⟩, ⟨some routeRefFixed2⟩]⟩⟩

/-- The record of the concrete scenario of the spec: one stale Route
reference followed by a Secret reference. -/
def scenarioRecord : Record :=
  ⟨some "TemplateInstance", some "ti", some ⟨some [⟨some routeRefStale⟩, ⟨some secretRef⟩]⟩⟩

/-- The scenario record after migration: the Route reference rewritten
to the canonical version, the Secret reference untouched. -/
def scenarioMigrated : Record :=
  ⟨some "TemplateInstance", some "ti", some ⟨some [⟨some routeRefFixed⟩, ⟨some secretRef⟩]⟩⟩

/-- A record whose single reference is missing its `kind` key. -/
def noKindRecord : Record :=
  ⟨some "TemplateInstance", some "x", some ⟨some [⟨some ⟨none, some "v1", none, none, none⟩⟩]⟩⟩

/-- An input holding one record whose status has no `objects` key:
`perform_migrations` returns the empty sequence on it. -/
def emptyStatusInput : TIInput :=
  ⟨⟨some "TemplateInstance", some "e", some ⟨none⟩⟩, none⟩

/-- An input holding the two-stale-references record alone. -/
def twoStaleInput : TIInput := ⟨twoStaleRecord, none⟩

/-- A TemplateInstanceList dictionary with an empty `items` list and no
`status` key. -/
def emptyListInput : TIInput := ⟨⟨some "TemplateInstanceList", none, none⟩, some []⟩

/-! Helper lemmas about the reference-level step. -/

theorem migrateRef_ok_of_needs (r : ObjRef) (k canon : String)
    (hk : r.kind = some k) (ht : transforms k = some canon)
    (hv : r.apiVersion ≠ some canon) :
    migrateRef r = Except.ok ({ r with apiVersion := some canon }, true) := by
  simp [migrateRef, hk, ht, hv]

theorem migrateRef_ok_of_canonical (r : ObjRef) (k canon : String)
    (hk : r.kind = some k) (ht : transforms k = some canon)
    (hv : r.apiVersion = some canon) :
    migrateRef r = Except.ok (r, false) := by
  simp [migrateRef, hk, ht, hv]

theorem migrateRef_ok_of_unmapped (r : ObjRef) (k : String)
    (hk : r.kind = some k) (ht : transforms k = none) :
    migrateRef r = Except.ok (r, false) := by
  simp [migrateRef, hk, ht]

theorem migrateRef_ok_dirty (r r2 : ObjRef) (d : Bool)
    (h : migrateRef r = Except.ok (r2, d)) : d = refNeedsRewrite r := by
  obtain ⟨rk, rv, rn, rns, ru⟩ := r
  cases rk with
  | none => simp [migrateRef] at h
  | some k =>
    cases ht : transforms k with
    | none =>
      simp [migrateRef, ht] at h
      simp [refNeedsRewrite, ht, h]
    | some canon =>
      by_cases hv : rv = some canon
      · simp [migrateRef, ht, hv] at h
        simp [refNeedsRewrite, ht, hv, h]
      · simp [migrateRef, ht, hv] at h
        simp [refNeedsRewrite, ht, hv, h]

theorem migrateRef_idem (r r2 : ObjRef) (d : Bool)
    (h : migrateRef r = Except.ok (r2, d)) :
    migrateRef r2 = Except.ok (r2, false) := by
  obtain ⟨rk, rv, rn, rns, ru⟩ := r
  cases rk with
  | none => simp [migrateRef] at h
  | some k =>
    cases ht : transforms k with
    | none =>
      simp [migrateRef, ht] at h
      simp [migrateRef, ← h.1, ht]
    | some canon =>
      by_cases hv : rv = some canon
      · simp [migrateRef, ht, hv] at h
        simp [migrateRef, ← h.1, ht, hv]
      · simp [migrateRef, ht, hv] at h
        simp [migrateRef, ← h.1, ht]

/-! Helper lemmas about single `status.objects` entries. -/

theorem migrateObj_ok_dirty (o o2 : StatusObject) (d : Bool)
    (h : migrateObj o = Except.ok (o2, d)) : d = objNeedsRewrite o := by
  obtain ⟨orf⟩ := o
  cases orf with
  | none => simp [migrateObj] at h
  | some r =>
    simp only [migrateObj] at h
    cases hr : migrateRef r with
    | error e => rw [hr] at h; simp at h
    | ok p =>
      obtain ⟨r2, d2⟩ := p
      rw [hr] at h
      simp at h
      rw [← h.2, migrateRef_ok_dirty r r2 d2 hr]
      simp [objNeedsRewrite]

theorem migrateObj_idem (o o2 : StatusObject) (d : Bool)
    (h : migrateObj o = Except.ok (o2, d)) :
    migrateObj o2 = Except.ok (o2, false) := by
  obtain ⟨orf⟩ := o
  cases orf with
  | none => simp [migrateObj] at h
  | some r =>
    simp only [migrateObj] at h
    cases hr : migrateRef r with
    | error e => rw [hr] at h; simp at h
    | ok p =>
      obtain ⟨r2, d2⟩ := p
      rw [hr] at h
      simp at h
      rw [← h.1]
      simp [migrateObj, migrateRef_idem r r2 d2 hr]

/-! Helper lemmas about the inner loop over a whole `objects` list. -/

theorem migrateObjs_length (objs objs2 : List StatusObject) (n : Nat)
    (h : migrateObjs objs = Except.ok (objs2, n)) :
    objs2.length = objs.length := by
  induction objs generalizing objs2 n with
  | nil => simp [migrateObjs] at h; simp [h.1.symm]
  | cons o rest ih =>
    simp only [migrateObjs] at h
    cases ho : migrateObj o with
    | error e => rw [ho] at h; simp at h
    | ok p =>
      obtain ⟨o2, d⟩ := p
      rw [ho] at h
      cases hrest : migrateObjs rest with
      | error e => rw [hrest] at h; simp at h
      | ok q =>
        obtain ⟨rest2, m⟩ := q
        rw [hrest] at h
        simp at h
        rw [← h.1]
        simp [ih rest2 m hrest]

theorem migrateObjs_pos_iff (objs objs2 : List StatusObject) (n : Nat)
    (h : migrateObjs objs = Except.ok (objs2, n)) :
    0 < n ↔ objs.any objNeedsRewrite = true := by
  induction objs generalizing objs2 n with
  | nil =>
    simp [migrateObjs] at h
    obtain ⟨h1, h2⟩ := h
    subst h2
    simp
  | cons o rest ih =>
    simp only [migrateObjs] at h
    cases ho : migrateObj o with
    | error e => rw [ho] at h; simp at h
    | ok p =>
      obtain ⟨o2, d⟩ := p
      rw [ho] at h
      cases hrest : migrateObjs rest with
      | error e => rw [hrest] at h; simp at h
      | ok q =>
        obtain ⟨rest2, m⟩ := q
        rw [hrest] at h
        simp at h
        rw [← h.2, List.any_cons, ← migrateObj_ok_dirty o o2 d ho]
        cases d with
        | true => simp
        | false => simpa using ih rest2 m hrest

theorem migrateObjs_idem (objs objs2 : List StatusObject) (n : Nat)
    (h : migrateObjs objs = Except.ok (objs2, n)) :
    migrateObjs objs2 = Except.ok (objs2, 0) := by
  induction objs generalizing objs2 n with
  | nil =>
    simp [migrateObjs] at h
    obtain ⟨h1, h2⟩ := h
    subst h1
    simp [migrateObjs]
  | cons o rest ih =>
    simp only [migrateObjs] at h
    cases ho : migrateObj o with
    | error e => rw [ho] at h; simp at h
    | ok p =>
      obtain ⟨o2, d⟩ := p
      rw [ho] at h
      cases hrest : migrateObjs rest with
      | error e => rw [hrest] at h; simp at h
      | ok q =>
        obtain ⟨rest2, m⟩ := q
        rw [hrest] at h
        simp at h
        rw [← h.1]
        simp [migrateObjs, migrateObj_idem o o2 d ho, ih rest2 m hrest]

/-! Helper lemmas about processing one record. -/

theorem migrateRecord_status_none (t : Record) (h : t.status = none) :
    migrateRecord t = Except.error () := by
  simp [migrateRecord, h]

theorem migrateRecord_no_objects (t : Record) (st : TIStatus)
    (h : t.status = some st) (ho : st.objects = none ∨ st.objects = some []) :
    migrateRecord t = Except.ok (t, 0) := by
  cases ho with
  | inl hn => simp [migrateRecord, h, hn]
  | inr he => simp [migrateRecord, h, he]

theorem migrateRecord_pos_iff (t t2 : Record) (n : Nat)
    (h : migrateRecord t = Except.ok (t2, n)) :
    0 < n ↔ recordHasStaleRef t = true := by
  obtain ⟨tk, tn, ts⟩ := t
  cases ts with
  | none => simp [migrateRecord] at h
  | some st =>
    obtain ⟨objsOpt⟩ := st
    cases objsOpt with
    | none =>
      simp [migrateRecord] at h
      simp [recordHasStaleRef, ← h.2]
    | some objs =>
      by_cases hobjs : objs = []
      · subst hobjs
        simp [migrateRecord] at h
        simp [recordHasStaleRef, ← h.2]
      · simp only [migrateRecord, if_neg hobjs] at h
        cases hm : migrateObjs objs with
        | error e => rw [hm] at h; simp at h
        | ok q =>
          obtain ⟨objs2, m⟩ := q
          rw [hm] at h
          simp at h
          rw [← h.2, recordHasStaleRef]
          simpa using migrateObjs_pos_iff objs objs2 m hm

theorem migrateRecord_idem (t t2 : Record) (n : Nat)
    (h : migrateRecord t = Except.ok (t2, n)) :
    migrateRecord t2 = Except.ok (t2, 0) := by
  obtain ⟨tk, tn, ts⟩ := t
  cases ts with
  | none => simp [migrateRecord] at h
  | some st =>
    obtain ⟨objsOpt⟩ := st
    cases objsOpt with
    | none =>
      simp [migrateRecord] at h
      rw [← h.1]
      simp [migrateRecord]
    | some objs =>
      by_cases hobjs : objs = []
      · subst hobjs
        simp [migrateRecord] at h
        rw [← h.1]
        simp [migrateRecord]
      · simp only [migrateRecord, if_neg hobjs] at h
        cases hm : migrateObjs objs with
        | error e => rw [hm] at h; simp at h
        | ok q =>
          obtain ⟨objs2, m⟩ := q
          rw [hm] at h
          simp at h
          rw [← h.1]
          have hlen := migrateObjs_length objs objs2 m hm
          have hobjs2 : ¬ objs2 = [] := by
            intro hc
            apply hobjs
            rw [hc] at hlen
            exact List.eq_nil_of_length_eq_zero hlen.symm
          simp [migrateRecord, if_neg hobjs2, migrateObjs_idem objs objs2 m hm]

/-! Helper lemmas about the outer loop over the record list. -/

theorem migrateList_flat (ts out : List Record)
    (h : migrateList ts = Except.ok out) :
    ∃ prs, migrateRecords ts = Except.ok prs ∧
      out = (prs.map fun p => List.replicate p.2 p.1).flatten := by
  induction ts generalizing out with
  | nil =>
    simp [migrateList] at h
    exact ⟨[], rfl, by simp [← h]⟩
  | cons t rest ih =>
    simp only [migrateList] at h
    cases hr : migrateRecord t with
    | error e => rw [hr] at h; simp at h
    | ok p =>
      obtain ⟨t2, n⟩ := p
      rw [hr] at h
      cases hrest : migrateList rest with
      | error e => rw [hrest] at h; simp at h
      | ok out2 =>
        rw [hrest] at h
        simp at h
        obtain ⟨prs, hprs, hout2⟩ := ih out2 hrest
        refine ⟨(t2, n) :: prs, ?_, ?_⟩
        · simp [migrateRecords, hr, hprs]
        · simp [← h, hout2]

theorem migrateList_mem_forward (ts out : List Record)
    (h : migrateList ts = Except.ok out) :
    ∀ r ∈ out, ∃ t ∈ ts, ∃ n, 0 < n ∧ migrateRecord t = Except.ok (r, n) := by
  induction ts generalizing out with
  | nil =>
    simp [migrateList] at h
    subst h
    simp
  | cons t rest ih =>
    simp only [migrateList] at h
    cases hr : migrateRecord t with
    | error e => rw [hr] at h; simp at h
    | ok p =>
      obtain ⟨t2, n⟩ := p
      rw [hr] at h
      cases hrest : migrateList rest with
      | error e => rw [hrest] at h; simp at h
      | ok out2 =>
        rw [hrest] at h
        simp at h
        intro r hrmem
        rw [← h] at hrmem
        rcases List.mem_append.mp hrmem with hrep | hout2
        · obtain ⟨hn, hrt⟩ := List.mem_replicate.mp hrep
          exact ⟨t, List.mem_cons_self t rest, n, Nat.pos_of_ne_zero hn,
            by rw [hr, hrt]⟩
        · obtain ⟨t0, ht0, n0, hn0, hrec⟩ := ih out2 hrest r hout2
          exact ⟨t0, List.mem_cons_of_mem t ht0, n0, hn0, hrec⟩

theorem migrateList_mem_backward (ts out : List Record)
    (h : migrateList ts = Except.ok out) :
    ∀ t ∈ ts, recordHasStaleRef t = true →
      ∃ n r, 0 < n ∧ migrateRecord t = Except.ok (r, n) ∧ r ∈ out := by
  induction ts generalizing out with
  | nil => simp
  | cons t rest ih =>
    simp only [migrateList] at h
    cases hr : migrateRecord t with
    | error e => rw [hr] at h; simp at h
    | ok p =>
      obtain ⟨t2, n⟩ := p
      rw [hr] at h
      cases hrest : migrateList rest with
      | error e => rw [hrest] at h; simp at h
      | ok out2 =>
        rw [hrest] at h
        simp at h
        intro t0 ht0 hstale
        rcases List.mem_cons.mp ht0 with heq | hmem
        · subst heq
          have hn : 0 < n := (migrateRecord_pos_iff t0 t2 n hr).mpr hstale
          refine ⟨n, t2, hn, hr, ?_⟩
          rw [← h]
          exact List.mem_append.mpr (Or.inl (List.mem_replicate.mpr
            ⟨Nat.pos_iff_ne_zero.mp hn, rfl⟩))
        · obtain ⟨n0, r0, hn0, hrec, hr0⟩ := ih out2 hrest t0 hmem hstale
          refine ⟨n0, r0, hn0, hrec, ?_⟩
          rw [← h]
          exact List.mem_append.mpr (Or.inr hr0)

theorem migrateList_out_clean (ts out : List Record)
    (h : migrateList ts = Except.ok out) :
    ∀ r ∈ out, migrateRecord r = Except.ok (r, 0) := by
  intro r hrmem
  obtain ⟨t, _, n, _, hrec⟩ := migrateList_mem_forward ts out h r hrmem
  exact migrateRecord_idem t r n hrec

theorem migrateList_of_clean (l : List Record)
    (h : ∀ r ∈ l, migrateRecord r = Except.ok (r, 0)) :
    migrateList l = Except.ok [] := by
  induction l with
  | nil => simp [migrateList]
  | cons r rest ih =>
    have hr := h r (List.mem_cons_self r rest)
    have hrest := ih fun r0 hr0 => h r0 (List.mem_cons_of_mem r hr0)
    simp [migrateList, hr, hrest]

theorem migrateObjs_of_unmapped (objs : List StatusObject)
    (h : ∀ o ∈ objs, ∃ r k, o.ref = some r ∧ r.kind = some k ∧ transforms k = none) :
    migrateObjs objs = Except.ok (objs, 0) := by
  induction objs with
  | nil => simp [migrateObjs]
  | cons o rest ih =>
    obtain ⟨r, k, href, hk, ht⟩ := h o (List.mem_cons_self o rest)
    have hrest := ih fun o0 ho0 => h o0 (List.mem_cons_of_mem o ho0)
    have ho : migrateObj o = Except.ok (o, false) := by
      obtain ⟨orf⟩ := o
      simp at href
      subst href
      simp [migrateObj, migrateRef_ok_of_unmapped r k hk ht]
    simp [migrateObjs, ho, hrest]

/-! Theorems settling the claims. -/

/-- C1 (counterexample): the code appends the enclosing record to
`ti_to_be_migrated` once per rewritten reference, so a record whose two
references are both rewritten appears twice in the result, refuting the
claim that a dirty record appears at most once. -/
theorem C1_counterexample :
    ¬ (∀ ts out, migrateList ts = Except.ok out → out.Nodup) := by
  intro h
  have h2 := h [twoStaleRecord] [twoStaleMigrated, twoStaleMigrated] (by rfl)
  simp at h2

/-- C1 (amended): each record marked dirty appears in the returned
sequence once per rewritten reference: the output is the concatenation,
in input order, of n copies of each record's final migrated state,
where n is the number of that record's references that were rewritten
(clean records contribute zero copies). -/
theorem C1_once_per_rewrite (ts out : List Record)
    (h : migrateList ts = Except.ok out) :
    ∃ prs, migrateRecords ts = Except.ok prs ∧
      out = (prs.map fun p => List.replicate p.2 p.1).flatten :=
  migrateList_flat ts out h

/-- C1 witness: the amended statement evaluated on the record with two
stale Route references, which contributes exactly two copies. -/
theorem C1_once_per_rewrite_witness :
    ∃ prs, migrateRecords [twoStaleRecord] = Except.ok prs ∧
      [twoStaleMigrated, twoStaleMigrated] =
        (prs.map fun p => List.replicate p.2 p.1).flatten :=
  C1_once_per_rewrite [twoStaleRecord] [twoStaleMigrated, twoStaleMigrated] (by rfl)

/-- C2 (counterexample): `migrate` can fail.  A reference entry whose
`ref` dictionary is missing the `kind` key makes
`obj["ref"]["kind"]` raise `KeyError` instead of being skipped as a
no-op, refuting the claim that migrate never fails. -/
theorem C2_counterexample : migrateList [noKindRecord] = Except.error () := by
  rfl

/-- C2 (amended): a record whose `status` is present but whose
`objects` key is absent or holds an empty list is treated as having
zero references and is never included; however the function is not
total: a record missing the `status` key, a `status.objects` entry
missing the `ref` key, and a `ref` missing the `kind` key each raise
rather than being skipped. -/
theorem C2_partial_totality :
    (∀ t st, t.status = some st → st.objects = none ∨ st.objects = some [] →
      migrateRecord t = Except.ok (t, 0) ∧ migrateList [t] = Except.ok []) ∧
    (∀ t, t.status = none → migrateRecord t = Except.error ()) ∧
    (∀ o, o.ref = none → migrateObj o = Except.error ()) ∧
    (∀ o r, o.ref = some r → r.kind = none → migrateObj o = Except.error ()) := by
  refine ⟨?_, ?_, ?_, ?_⟩
  · intro t st hst ho
    have hrec := migrateRecord_no_objects t st hst ho
    exact ⟨hrec, by simp [migrateList, hrec]⟩
  · intro t hs
    exact migrateRecord_status_none t hs
  · intro o hr
    obtain ⟨orf⟩ := o
    simp at hr
    subst hr
    rfl
  · intro o r hr hk
    obtain ⟨orf⟩ := o
    simp at hr
    subst hr
    simp [migrateObj, migrateRef, hk]

/-- C2 witness: the amended statement evaluated on concrete records
(status without objects; missing status; missing ref; missing kind). -/
theorem C2_partial_totality_witness :
    (migrateRecord ⟨some "TemplateInstance", some "a", some ⟨none⟩⟩ =
      Except.ok (⟨some "TemplateInstance", some "a", some ⟨none⟩⟩, 0)) ∧
    migrateRecord ⟨some "TemplateInstance", some "b", none⟩ = Except.error () ∧
    migrateObj ⟨none⟩ = Except.error () ∧
    migrateObj ⟨some ⟨none, some "v1", none, none, none⟩⟩ = Except.error () :=
  ⟨(C2_partial_totality.1 _ ⟨none⟩ rfl (Or.inl rfl)).1,
    C2_partial_totality.2.1 _ rfl,
    C2_partial_totality.2.2.1 ⟨none⟩ rfl,
    C2_partial_totality.2.2.2 _ ⟨none, some "v1", none, none, none⟩ rfl rfl⟩

/-- C3 (confirmed): a record occurs in the output exactly when at least
one of its references had its apiVersion changed: every output element
is the migrated form of an input record holding a reference whose kind
is mapped by `transforms` and whose stored apiVersion differed from the
canonical value, and conversely every such input record's migrated form
occurs in the output.  Records with no such reference contribute
nothing. -/
theorem C3_selectivity (ts out : List Record)
    (h : migrateList ts = Except.ok out) :
    (∀ r ∈ out, ∃ t ∈ ts, recordHasStaleRef t = true ∧
      ∃ n, 0 < n ∧ migrateRecord t = Except.ok (r, n)) ∧
    (∀ t ∈ ts, recordHasStaleRef t = true →
      ∃ n r, 0 < n ∧ migrateRecord t = Except.ok (r, n) ∧ r ∈ out) := by
  constructor
  · intro r hr
    obtain ⟨t, ht, n, hn, hrec⟩ := migrateList_mem_forward ts out h r hr
    exact ⟨t, ht, (migrateRecord_pos_iff t r n hrec).mp hn, n, hn, hrec⟩
  · intro t ht hstale
    exact migrateList_mem_backward ts out h t ht hstale

/-- C3 witness: the statement evaluated on a two-record input (one
stale, one already canonical), whose output is one migrated record. -/
theorem C3_selectivity_witness :
    (∀ r ∈ [scenarioMigrated], ∃ t ∈ [scenarioRecord, scenarioMigrated],
      recordHasStaleRef t = true ∧
      ∃ n, 0 < n ∧ migrateRecord t = Except.ok (r, n)) ∧
    (∀ t ∈ [scenarioRecord, scenarioMigrated], recordHasStaleRef t = true →
      ∃ n r, 0 < n ∧ migrateRecord t = Except.ok (r, n) ∧ r ∈ [scenarioMigrated]) :=
  C3_selectivity [scenarioRecord, scenarioMigrated] [scenarioMigrated] (by rfl)

/-- C4 (confirmed): a reference is rewritten to the canonical
apiVersion exactly when its kind has a canonical mapping and its
current apiVersion differs from that value (including an absent
apiVersion, since `none` differs from `some canon`); a reference that
is already canonical or whose kind is unmapped is returned unchanged
and not dirty; and any contained reference satisfying the rewrite
condition makes the enclosing record dirty (its rewrite count
positive). -/
theorem C4_rewrite_exactly_when_stale :
    (∀ r k canon, r.kind = some k → transforms k = some canon →
      r.apiVersion ≠ some canon →
      migrateRef r = Except.ok ({ r with apiVersion := some canon }, true)) ∧
    (∀ r k canon, r.kind = some k → transforms k = some canon →
      r.apiVersion = some canon → migrateRef r = Except.ok (r, false)) ∧
    (∀ r k, r.kind = some k → transforms k = none →
      migrateRef r = Except.ok (r, false)) ∧
    (∀ t t2 n st objs o r, t.status = some st → st.objects = some objs →
      o ∈ objs → o.ref = some r → refNeedsRewrite r = true →
      migrateRecord t = Except.ok (t2, n) → 0 < n) := by
  refine ⟨migrateRef_ok_of_needs, migrateRef_ok_of_canonical,
    migrateRef_ok_of_unmapped, ?_⟩
  intro t t2 n st objs o r hst hobjs ho href hneed hrec
  have hstale : recordHasStaleRef t = true := by
    simp [recordHasStaleRef, hst, hobjs]
    exact ⟨o, ho, by simp [objNeedsRewrite, href, hneed]⟩
  exact (migrateRecord_pos_iff t t2 n hrec).mpr hstale

/-- C4 witness: the statement evaluated on the stale Route reference,
the fixed Route reference, the Secret reference, and the scenario
record. -/
theorem C4_rewrite_exactly_when_stale_witness :
    migrateRef routeRefStale = Except.ok (routeRefFixed, true) ∧
    migrateRef routeRefFixed = Except.ok (routeRefFixed, false) ∧
    migrateRef secretRef = Except.ok (secretRef, false) ∧
    0 < 1 :=
  ⟨C4_rewrite_exactly_when_stale.1 routeRefStale "Route" "route.openshift.io/v1"
      rfl rfl (by simp [routeRefStale]),
    C4_rewrite_exactly_when_stale.2.1 routeRefFixed "Route" "route.openshift.io/v1"
      rfl rfl rfl,
    C4_rewrite_exactly_when_stale.2.2.1 secretRef "Secret" rfl rfl,
    C4_rewrite_exactly_when_stale.2.2.2 scenarioRecord scenarioMigrated 1
      ⟨some [⟨some routeRefStale⟩, ⟨some secretRef⟩]⟩
      [⟨some routeRefStale⟩, ⟨some secretRef⟩] ⟨some routeRefStale⟩ routeRefStale
      rfl rfl (by simp) rfl (by rfl) (by rfl)⟩

/-- C5 (confirmed): migration is idempotent: running migrate on the
record sequence produced by a previous migration pass yields the empty
sequence, every produced record being already fully canonical (its
re-migration rewrites nothing). -/
theorem C5_idempotent (ts out : List Record)
    (h : migrateList ts = Except.ok out) :
    migrateList out = Except.ok [] ∧
    ∀ r ∈ out, migrateRecord r = Except.ok (r, 0) := by
  have hc := migrateList_out_clean ts out h
  exact ⟨migrateList_of_clean out hc, hc⟩

/-- C5 witness: the statement evaluated on the two-stale-references
record, whose first pass produces two copies of the migrated record. -/
theorem C5_idempotent_witness :
    migrateList [twoStaleMigrated, twoStaleMigrated] = Except.ok [] ∧
    ∀ r ∈ [twoStaleMigrated, twoStaleMigrated],
      migrateRecord r = Except.ok (r, 0) :=
  C5_idempotent [twoStaleRecord] [twoStaleMigrated, twoStaleMigrated] (by rfl)

/-- C6 (confirmed): a reference whose kind has no canonical mapping is
returned with every field unchanged and does not mark its record
dirty, whatever its apiVersion; and a record all of whose references
have unmapped kinds is returned unchanged with rewrite count zero and
contributes nothing to the output. -/
theorem C6_unmapped_untouched :
    (∀ r k, r.kind = some k → transforms k = none →
      migrateRef r = Except.ok (r, false)) ∧
    (∀ t st objs, t.status = some st → st.objects = some objs →
      (∀ o ∈ objs, ∃ r k, o.ref = some r ∧ r.kind = some k ∧ transforms k = none) →
      migrateRecord t = Except.ok (t, 0) ∧ migrateList [t] = Except.ok []) := by
  refine ⟨migrateRef_ok_of_unmapped, ?_⟩
  intro t st objs hst hobjs hall
  have hrec : migrateRecord t = Except.ok (t, 0) := by
    obtain ⟨tk, tn, tst⟩ := t
    simp at hst
    subst hst
    obtain ⟨stobjs⟩ := st
    simp at hobjs
    subst hobjs
    by_cases he : objs = []
    · subst he
      simp [migrateRecord]
    · simp [migrateRecord, if_neg he, migrateObjs_of_unmapped objs hall]
  exact ⟨hrec, by simp [migrateList, hrec]⟩

/-- C6 witness: the statement evaluated on the Secret reference and on
a record whose only reference is the Secret one. -/
theorem C6_unmapped_untouched_witness :
    migrateRef secretRef = Except.ok (secretRef, false) ∧
    (migrateRecord ⟨some "TemplateInstance", some "s", some ⟨some [⟨some secretRef⟩]⟩⟩ =
      Except.ok (⟨some "TemplateInstance", some "s", some ⟨some [⟨some secretRef⟩]⟩⟩, 0) ∧
      migrateList [⟨some "TemplateInstance", some "s", some ⟨some [⟨some secretRef⟩]⟩⟩] =
        Except.ok []) :=
  ⟨C6_unmapped_untouched.1 secretRef "Secret" rfl rfl,
    C6_unmapped_untouched.2 _ ⟨some [⟨some secretRef⟩]⟩ [⟨some secretRef⟩] rfl rfl
      (by intro o ho; simp at ho; subst ho; exact ⟨secretRef, "Secret", rfl, rfl, rfl⟩)⟩

/-- C7 (confirmed): when a namespace is given, `execute_module` only
fetches that namespace's TemplateInstances and falls through to
`exit_json(changed=False, result=[])`: no record is rewritten, nothing
is patched, and `perform_migrations` runs only in the all-namespaces
branch.  The result is the same whatever the fetched data, the check
mode and the patch behaviour. -/
theorem C7_namespace_branch_no_mutation (n : String) (checkMode : Bool)
    (fetchAll : TIInput) (fetchNs : String → TIInput)
    (patchFn : Record → Record) :
    execute_module (some n) checkMode fetchAll fetchNs patchFn =
      Except.ok ⟨false, [], [], some n⟩ := rfl

/-- C8 (counterexample): in the all-namespaces branch with check mode
on, the claim says the operation returns with changed=true; but when
the migrated candidate set is empty the source skips the whole
`if ti_to_be_migrated` block and exits with changed=false, so the
changed flag is not unconditionally true in check mode. -/
theorem C8_counterexample :
    ¬ (∀ (fetchAll : TIInput) (fetchNs : String → TIInput)
        (patchFn : Record → Record) res,
        execute_module none true fetchAll fetchNs patchFn = Except.ok res →
        res.changed = true) := by
  intro h
  have h2 := h emptyStatusInput (fun _ => emptyStatusInput) id
    ⟨false, [], [], none⟩ rfl
  simp at h2

/-- C8 (amended): in the all-namespaces branch, when the migrated
candidate set is empty the operation returns changed=false with an
empty result and no network mutation in either mode; when it is
non-empty, check mode returns the candidate set with changed=true and
no network mutation, and otherwise each candidate is patched
individually through the client, the patched results are aggregated in
order, and changed is true. -/
theorem C8_all_namespaces_branch (checkMode : Bool) (fetchAll : TIInput)
    (fetchNs : String → TIInput) (patchFn : Record → Record)
    (tis : List Record) (h : perform_migrations fetchAll = Except.ok tis) :
    (tis = [] → execute_module none checkMode fetchAll fetchNs patchFn =
      Except.ok ⟨false, [], [], none⟩) ∧
    (tis ≠ [] → checkMode = true →
      execute_module none checkMode fetchAll fetchNs patchFn =
        Except.ok ⟨true, tis, [], none⟩) ∧
    (tis ≠ [] → checkMode = false →
      execute_module none checkMode fetchAll fetchNs patchFn =
        Except.ok ⟨true, tis.map patchFn, tis, none⟩) := by
  refine ⟨?_, ?_, ?_⟩
  · intro he
    subst he
    simp [execute_module, h]
  · intro hne hcm
    subst hcm
    simp [execute_module, h, hne]
  · intro hne hcm
    subst hcm
    simp [execute_module, h, hne]

/-- C8 witness: the amended statement evaluated on an input whose
all-namespaces listing holds one record with two stale references. -/
theorem C8_all_namespaces_branch_witness :
    (([twoStaleMigrated, twoStaleMigrated] : List Record) = [] →
      execute_module none false twoStaleInput (fun _ => twoStaleInput) id =
        Except.ok ⟨false, [], [], none⟩) ∧
    (([twoStaleMigrated, twoStaleMigrated] : List Record) ≠ [] → false = true →
      execute_module none false twoStaleInput (fun _ => twoStaleInput) id =
        Except.ok ⟨true, [twoStaleMigrated, twoStaleMigrated], [], none⟩) ∧
    (([twoStaleMigrated, twoStaleMigrated] : List Record) ≠ [] → false = false →
      execute_module none false twoStaleInput (fun _ => twoStaleInput) id =
        Except.ok ⟨true, ([twoStaleMigrated, twoStaleMigrated] : List Record).map id,
          [twoStaleMigrated, twoStaleMigrated], none⟩) :=
  C8_all_namespaces_branch false twoStaleInput (fun _ => twoStaleInput) id
    [twoStaleMigrated, twoStaleMigrated] (by rfl)

/-- C9 (confirmed): on one record whose status.objects holds a Route
reference with apiVersion route.openshift.io/v1.Route followed by a
Secret reference with apiVersion v1, migrate returns exactly one
record, with the Route reference rewritten to route.openshift.io/v1
and the Secret reference (and every other field) unchanged. -/
theorem C9_concrete_scenario :
    migrateList [scenarioRecord] = Except.ok [scenarioMigrated] := by
  rfl

/-- C10 (confirmed): when the input to `perform_migrations` has kind
TemplateInstanceList but its items key is absent (or `None` — both read
back as absent through `.get`) or an empty list, Python truthiness
makes the `and ... or ...` selection wrap the whole list dictionary as
the single record to process; its `status` key is then indexed, which
raises when absent, so an empty TemplateInstanceList is not a safe
no-op. -/
theorem C10_empty_list_unsafe (t : TIInput)
    (hk : t.asRecord.kind = some "TemplateInstanceList")
    (hi : t.items = none ∨ t.items = some []) :
    selectTiList t = [t.asRecord] ∧
    (t.asRecord.status = none → perform_migrations t = Except.error ()) := by
  have hsel : selectTiList t = [t.asRecord] := by
    cases hi with
    | inl h => simp [selectTiList, hk, h]
    | inr h => simp [selectTiList, hk, h]
  refine ⟨hsel, ?_⟩
  intro hs
  simp [perform_migrations, hsel, migrateList, migrateRecord_status_none _ hs]

/-- C10 witness: the statement evaluated on a TemplateInstanceList
dictionary with empty items and no status. -/
theorem C10_empty_list_unsafe_witness :
    selectTiList emptyListInput = [emptyListInput.asRecord] ∧
    (emptyListInput.asRecord.status = none →
      perform_migrations emptyListInput = Except.error ()) :=
  C10_empty_list_unsafe emptyListInput rfl (Or.inr rfl)

end MigrateTI
